import Mathlib

/-!
Verification development for the `living-doc-collector-gh` consolidation engine.

The Python source is shallowly embedded: each Python class becomes a Lean
structure, mutable methods become state-transition functions, remote calls are
abstracted as explicit environment data (with `Except Unit` modelling the
possibility of a platform error at the call sites whose exceptions the code
catches), and Python `dict`s become insertion-ordered association lists with
insert-or-replace update (matching CPython dict semantics).
-/

namespace LivingDoc

/-- Python string truthiness for optional strings: `None` and `""` are falsy. -/
def optTruthy : Option String → Bool
  | none => false
  | some s => !(s = "")

/-- Python `dict` lookup (`d[k]` / `k in d`) over an insertion-ordered
association list. -/
def dictLookup {α : Type} : List (String × α) → String → Option α
  | [], _ => none
  | (k', v) :: rest, k => if k' = k then some v else dictLookup rest k

/-- Python `dict` assignment `d[k] = v`: replaces the value in place when the
key exists, otherwise appends the binding, preserving insertion order. -/
def dictSet {α : Type} : List (String × α) → String → α → List (String × α)
  | [], k, v => [(k, v)]
  | (k', v') :: rest, k, v => if k' = k then (k, v) :: rest else (k', v') :: dictSet rest k v

-- Label constants from `src/utils/constants.py`.

/-- `DOC_USER_STORY_LABEL` from `utils/constants.py`. -/
def DOC_USER_STORY_LABEL : String := "DocumentedUserStory"

/-- `DOC_FEATURE_LABEL` from `utils/constants.py`. -/
def DOC_FEATURE_LABEL : String := "DocumentedFeature"

/-- `DOC_FUNCTIONALITY_LABEL` from `utils/constants.py`. -/
def DOC_FUNCTIONALITY_LABEL : String := "DocumentedFunctionality"

/-- `SUPPORTED_ISSUE_LABELS` from `utils/constants.py`. -/
def SUPPORTED_ISSUE_LABELS : List String :=
  [DOC_USER_STORY_LABEL, DOC_FEATURE_LABEL, DOC_FUNCTIONALITY_LABEL]

/-- Modelled from the spec: `Issues.make_issue_key` of the external
`living_doc_utilities` library (absent from the sources; the spec glossary
gives the exact format `org/repo#number`). -/
def make_issue_key (organization : String) (repository : String) (number : Nat) : String :=
  organization ++ "/" ++ repository ++ "#" ++ toString number

/-- One GitHub timeline event as seen by `_parse_timeline_event`
(`consolidated_issue.py`).  `event` is `none` when the `event` attribute is
missing or `None`; `actor` is `some login` exactly when the `actor` attribute
is present and truthy; for `label`/`assignee`/`milestone` the outer `Option`
records attribute presence (`hasattr`) and the inner `Option` whether the
attribute value is truthy (carrying its name/login/title). -/
structure TimelineEvent where
  event : Option String
  created_at : Option String
  actor : Option String
  label : Option (Option String)
  assignee : Option (Option String)
  milestone : Option (Option String)
deriving DecidableEq, Repr

/-- One issue comment as used in `_ensure_audit_data_fetched`:
`created_at` is `none` when the comment's timestamp is `None`, `user` is
`some login` when the comment has a truthy user. -/
structure IssueComment where
  created_at : Option String
  user : Option String
deriving DecidableEq, Repr

instance {ε α : Type} [DecidableEq ε] [DecidableEq α] : DecidableEq (Except ε α) := fun
  | .error a, .error b =>
    if h : a = b then .isTrue (by rw [h]) else .isFalse (by simp [h])
  | .error _, .ok _ => .isFalse (by simp)
  | .ok _, .error _ => .isFalse (by simp)
  | .ok a, .ok b =>
    if h : a = b then .isTrue (by rw [h]) else .isFalse (by simp [h])

/-- The view of a PyGithub repository `Issue` used by the embedded code.
Remote sub-fetches whose exceptions the code catches are modelled as
`Except Unit` values carried by the issue: `closed_by` (lazy attribute access,
guarded by the outer `try` of `_ensure_audit_data_fetched`), `get_comments`
(inner `try`), and `get_timeline` (guarded inside `_fetch_audit_events`).
`user` is `some login` exactly when the issue has a truthy creator object. -/
structure RepoIssue where
  number : Nat
  title : String
  state : String
  created_at : String
  updated_at : String
  closed_at : String
  html_url : String
  body : String
  labels : List String
  user : Option String
  closed_by : Except Unit (Option String)
  comments : Nat
  get_comments : Except Unit (List IssueComment)
  get_timeline : Except Unit (List TimelineEvent)
deriving DecidableEq, Repr

/-- Modelled from the spec: `ProjectStatus` of the external
`living_doc_utilities` library (absent from the sources): project title,
status, priority, size and MoSCoW value, each optional. -/
structure ProjectStatus where
  project_title : Option String := none
  status : Option String := none
  priority : Option String := none
  size : Option String := none
  moscow : Option String := none
deriving DecidableEq, Repr

/-- A value stored in the audit dictionary built by `get_audit_data`. -/
inductive AuditValue where
  | str (s : String)
  | nat (n : Nat)
  | events (es : List (List (String × Option String)))
deriving DecidableEq, Repr

/-- `ConsolidatedIssue` (`consolidated_issue.py`): the double-underscore
fields of the Python class.  Field defaults mirror `__init__`. -/
structure ConsolidatedIssue where
  issue : Option RepoIssue
  repository_id : String
  issue_type : String := "Issue"
  linked_to_project : Bool := false
  project_issue_statuses : List ProjectStatus := []
  issue_labels : List String := []
  errors : List (String × String) := []
  audit_data_fetched : Bool := false
  created_by : Option String := none
  closed_by : Option String := none
  comments_count : Nat := 0
  last_commented_at : Option String := none
  last_commented_by : Option String := none
  audit_events : List (List (String × Option String)) := []
deriving DecidableEq, Repr

/-- `ConsolidatedIssue.__init__(repository_id, repository_issue)`. -/
def ConsolidatedIssue.init (repository_id : String) (repository_issue : Option RepoIssue) :
    ConsolidatedIssue :=
  { issue := repository_issue, repository_id := repository_id }

/-- The `labels` property: returns the cached label list when non-empty,
otherwise caches (and returns) the backing issue's label names; `[]` when no
issue is attached.  Returns the value together with the updated object. -/
def ConsolidatedIssue.labelsGet (c : ConsolidatedIssue) : List String × ConsolidatedIssue :=
  if !c.issue_labels.isEmpty then (c.issue_labels, c)
  else
    match c.issue with
    | some i => (i.labels, { c with issue_labels := i.labels })
    | none => (c.issue_labels, c)

/-- The fixed relevant-event set of `_parse_timeline_event`. -/
def relevant_events : List String :=
  ["labeled", "unlabeled", "assigned", "unassigned", "milestoned", "demilestoned",
   "reopened", "closed"]

/-- `_parse_timeline_event` (`consolidated_issue.py` lines 260-308): keeps an
event only when its kind is in `relevant_events`, building the ordered dict
`{action, timestamp, actor?, specific-field?}`.  The specific field is added
only when the event kind matches and the attribute is present (`hasattr`),
with value `none` when the attribute is falsy. -/
def _parse_timeline_event (e : TimelineEvent) : Option (List (String × Option String)) :=
  match e.event with
  | none => none
  | some event_type =>
    if event_type = "" then none
    else if !(relevant_events.contains event_type) then none
    else
      let base : List (String × Option String) :=
        [("action", some event_type), ("timestamp", e.created_at)]
      let withActor :=
        match e.actor with
        | some login => base ++ [("actor", some login)]
        | none => base
      let withSpecific :=
        if event_type = "labeled" ∨ event_type = "unlabeled" then
          match e.label with
          | some v => withActor ++ [("label", v)]
          | none => withActor
        else if event_type = "assigned" ∨ event_type = "unassigned" then
          match e.assignee with
          | some v => withActor ++ [("assignee", v)]
          | none => withActor
        else if event_type = "milestoned" ∨ event_type = "demilestoned" then
          match e.milestone with
          | some v => withActor ++ [("milestone", v)]
          | none => withActor
        else withActor
      some withSpecific

/-- `_fetch_audit_events`: empty on a missing issue or a failed timeline
fetch; otherwise the parsed relevant events in timeline order. -/
def ConsolidatedIssue.fetchAuditEvents (c : ConsolidatedIssue) :
    List (List (String × Option String)) :=
  match c.issue with
  | none => []
  | some i =>
    match i.get_timeline with
    | .error _ => []
    | .ok evs => evs.filterMap _parse_timeline_event

/-- `_ensure_audit_data_fetched` (`consolidated_issue.py` lines 188-233) as a
state transition.  No-op when the flag is set or no issue is attached;
otherwise the flag is set first, then creator/closer/comment/timeline data is
filled in.  A `closed_by` access failure triggers the outer `except`
(whatever was already populated stays); a comment-list failure triggers the
inner `except` and execution continues with the timeline fetch. -/
def ConsolidatedIssue.ensureAuditDataFetched (c : ConsolidatedIssue) : ConsolidatedIssue :=
  if c.audit_data_fetched then c
  else
    match c.issue with
    | none => c
    | some i =>
      let c1 := { c with audit_data_fetched := true }
      let c2 := if i.user.isSome then { c1 with created_by := i.user } else c1
      match i.closed_by with
      | .error _ => c2
      | .ok cb =>
        let c3 := if cb.isSome then { c2 with closed_by := cb } else c2
        let c4 := { c3 with comments_count := i.comments }
        let c5 :=
          if 0 < i.comments then
            match i.get_comments with
            | .error _ => c4
            | .ok comments =>
              match comments.getLast? with
              | none => c4
              | some last =>
                { c4 with last_commented_at := last.created_at,
                          last_commented_by := last.user }
          else c4
        { c5 with audit_events := c5.fetchAuditEvents }

/-- Helper for `get_audit_data`: a conditional singleton entry. -/
def auditEntry (b : Bool) (k : String) (v : AuditValue) : List (String × AuditValue) :=
  if b then [(k, v)] else []

/-- `get_audit_data` (`consolidated_issue.py` lines 320-348).  Every audit
property triggers the (idempotent) lazy fetch; the dict keeps only truthy
fields. -/
def ConsolidatedIssue.get_audit_data (c : ConsolidatedIssue) : List (String × AuditValue) :=
  let c' := c.ensureAuditDataFetched
  auditEntry (optTruthy c'.created_by) "created_by" (.str (c'.created_by.getD "")) ++
  auditEntry (optTruthy c'.closed_by) "closed_by" (.str (c'.closed_by.getD "")) ++
  auditEntry (decide (0 < c'.comments_count)) "comments_count" (.nat c'.comments_count) ++
  auditEntry (optTruthy c'.last_commented_at) "last_commented_at"
    (.str (c'.last_commented_at.getD "")) ++
  auditEntry (optTruthy c'.last_commented_by) "last_commented_by"
    (.str (c'.last_commented_by.getD "")) ++
  auditEntry (!c'.audit_events.isEmpty) "audit_events" (.events c'.audit_events)

/-- `update_with_project_data`. -/
def ConsolidatedIssue.update_with_project_data (c : ConsolidatedIssue)
    (project_issue_status : ProjectStatus) : ConsolidatedIssue :=
  { c with linked_to_project := true,
           project_issue_statuses := c.project_issue_statuses ++ [project_issue_status] }

/-- JSON shape of `content.repository.owner` in a project-item node. -/
structure OwnerJson where
  login : Option String
deriving DecidableEq, Repr

/-- JSON shape of `content.repository` in a project-item node. -/
structure RepositoryJson where
  name : Option String
  owner : Option OwnerJson
deriving DecidableEq, Repr

/-- JSON shape of `content` in a project-item node; an `Option` field is
`none` when the key is absent (a `KeyError` on access). -/
structure ContentJson where
  number : Option Nat
  repository : Option RepositoryJson
deriving DecidableEq, Repr

/-- One node of `fieldValues.nodes`; `name` is only read by the code when
`typename` equals `"ProjectV2ItemFieldSingleSelectValue"` (the GraphQL query
only returns `name` for that variant). -/
structure FieldValueNode where
  typename : String
  name : String
deriving DecidableEq, Repr

/-- JSON of one project-board item node handed to `ProjectIssue.loads`. -/
structure ProjectItemJson where
  content : Option ContentJson
  fieldValues : Option (List FieldValueNode)
deriving DecidableEq, Repr

/-- Modelled from the spec: `GitHubProject` (`doc_issues/model/github_project.py`
is absent from the sources) — board identity plus the resolved single-select
field-option vocabularies (`field_options`). -/
structure GitHubProject where
  title : String
  field_options : List (String × List String)
deriving DecidableEq, Repr

/-- `ProjectIssue` (`project_issue.py`): defaults mirror `__init__`. -/
structure ProjectIssue where
  number : Nat := 0
  organization_name : String := ""
  repository_name : String := ""
  project_status : ProjectStatus := {}
deriving DecidableEq, Repr

/-- The three sequential key accesses of `ProjectIssue.loads` guarded by one
`try/except KeyError`: a missing key aborts the remaining assignments but
keeps the ones already made. -/
def ProjectIssue.loadKeyFields (self : ProjectIssue) (content : ContentJson) : ProjectIssue :=
  match content.number with
  | none => self
  | some n =>
    let self := { self with number := n }
    match content.repository with
    | none => self
    | some repo =>
      match repo.name with
      | none => self
      | some nm =>
        let self := { self with repository_name := nm }
        match repo.owner with
        | none => self
        | some ow =>
          match ow.login with
          | none => self
          | some lg => { self with organization_name := lg }

/-- The per-field-value update of the status bundle in `ProjectIssue.loads`
(lines 101-109): `project.field_options.get(name, [])` membership decides
which status slot the single-select value lands in. -/
def applyFieldType (project : GitHubProject) (s : ProjectIssue) (field_type : String) :
    ProjectIssue :=
  if ((dictLookup project.field_options "Status").getD []).contains field_type then
    { s with project_status := { s.project_status with status := some field_type } }
  else if ((dictLookup project.field_options "Priority").getD []).contains field_type then
    { s with project_status := { s.project_status with priority := some field_type } }
  else if ((dictLookup project.field_options "Size").getD []).contains field_type then
    { s with project_status := { s.project_status with size := some field_type } }
  else if ((dictLookup project.field_options "MoSCoW").getD []).contains field_type then
    { s with project_status := { s.project_status with moscow := some field_type } }
  else s

/-- `ProjectIssue.loads` (`project_issue.py` lines 72-111): `none` only when
the node has no `content` key; otherwise the key fields are loaded (partially,
on `KeyError`), the project title recorded, and single-select field values
folded into the status bundle. -/
def ProjectIssue.loads (self : ProjectIssue) (issue_json : ProjectItemJson)
    (project : GitHubProject) : Option ProjectIssue :=
  match issue_json.content with
  | none => none
  | some content =>
    let self := self.loadKeyFields content
    let self :=
      { self with project_status := { self.project_status with project_title := some project.title } }
    let field_types : List String :=
      match issue_json.fieldValues with
      | none => []
      | some nodes =>
        (nodes.filter (fun n => n.typename = "ProjectV2ItemFieldSingleSelectValue")).map
          (fun n => n.name)
    let self := field_types.foldl (applyFieldType project) self
    some self

-- ## Collector (`collector.py`)

/-- `ConfigRepository` (`doc_issues/model/config_repository.py` is absent from
the sources; modelled from the spec's data model: organization name,
repository name, optional project-title filter). -/
structure ConfigRepository where
  organization_name : String
  repository_name : String
  projects_title_filter : List String
deriving DecidableEq, Repr

/-- A repository handle returned by `github_instance.get_repo`. -/
structure Repository where
  full_name : String
deriving DecidableEq, Repr

/-- The remote world the collector's fetch stage talks to.  `get_repo` is the
`safe_call`-wrapped repository lookup (`none` on failure); the other calls
return their (successful) results. -/
structure GithubEnv where
  get_repo : String → Option Repository
  get_issues : Repository → String → List RepoIssue
  get_repository_projects : Repository → List String → List GitHubProject
  get_project_issues : GitHubProject → List ProjectIssue

/-- The `f"{organization_name}/{repository_name}"` repository id. -/
def configRepoId (cfg : ConfigRepository) : String :=
  cfg.organization_name ++ "/" ++ cfg.repository_name

/-- The loop of `_fetch_github_issues` (`collector.py` lines 122-164):
`return {}` on a failed repository lookup discards the accumulator. -/
def fetchIssuesLoop (env : GithubEnv) (acc : List (String × List RepoIssue)) :
    List ConfigRepository → List (String × List RepoIssue)
  | [] => acc
  | cfg :: rest =>
    let repository_id := configRepoId cfg
    match env.get_repo repository_id with
    | none => []
    | some repository =>
      let issues := SUPPORTED_ISSUE_LABELS.foldl
        (fun l label => l ++ env.get_issues repository label) []
      fetchIssuesLoop env (dictSet acc repository_id issues) rest

/-- `_fetch_github_issues`. -/
def _fetch_github_issues (env : GithubEnv) (repositories : List ConfigRepository) :
    List (String × List RepoIssue) :=
  fetchIssuesLoop env [] repositories

/-- The composite key computed for one project issue inside
`_fetch_github_project_issues` (lines 216-221). -/
def projectIssueKeyOf (pi : ProjectIssue) : String :=
  make_issue_key pi.organization_name pi.repository_name pi.number

/-- `all_project_issues` update (lines 223-228): first sighting stores a
singleton list, later sightings append. -/
def addProjectIssue (acc : List (String × List ProjectIssue)) (pi : ProjectIssue) :
    List (String × List ProjectIssue) :=
  let key := projectIssueKeyOf pi
  match dictLookup acc key with
  | none => acc ++ [(key, [pi])]
  | some l => dictSet acc key (l ++ [pi])

/-- The per-repository loop of `_fetch_github_project_issues`
(`collector.py` lines 166-233), after the mining-enabled gate. -/
def fetchProjectIssuesLoop (env : GithubEnv) (acc : List (String × List ProjectIssue)) :
    List ConfigRepository → List (String × List ProjectIssue)
  | [] => acc
  | cfg :: rest =>
    let repository_id := configRepoId cfg
    match env.get_repo repository_id with
    | none => []
    | some repository =>
      let projects := env.get_repository_projects repository cfg.projects_title_filter
      let acc := projects.foldl (fun acc project =>
        (env.get_project_issues project).foldl addProjectIssue acc) acc
      fetchProjectIssuesLoop env acc rest

/-- `_fetch_github_project_issues`: `{}` when project-state mining is
disabled, otherwise the per-repository loop with the early-abort lookup
policy. -/
def _fetch_github_project_issues (env : GithubEnv) (miningEnabled : Bool)
    (repositories : List ConfigRepository) : List (String × List ProjectIssue) :=
  if !miningEnabled then []
  else fetchProjectIssuesLoop env [] repositories

-- ## Consolidation (`collector.py` lines 235-292)

/-- The fixed `"multiple_labels"` message recorded on a duplicate sighting. -/
def multipleLabelsMessage : String :=
  "Multiple Living-Doc labels found for the same issue. " ++
  "Please use only one Living-Doc label per issue."

/-- Python `str.split("/")` for the single-character separator, written as a
structural recursion over the character data so that it evaluates inside the
kernel. -/
def splitCharAux : List Char → List Char → List String
  | [], cur => [String.mk cur.reverse]
  | c :: rest, cur =>
    if c = '/' then String.mk cur.reverse :: splitCharAux rest []
    else splitCharAux rest (c :: cur)

/-- `repository_id.split("/")`. -/
def splitOnSlash (s : String) : List String := splitCharAux s.data []

/-- The composite key computed for one repository issue (line 252-253):
`repository_id` is split on `/` and fed to `make_issue_key`. -/
def repoIssueKey (repository_id : String) (ri : RepoIssue) : String :=
  let parts := splitOnSlash repository_id
  make_issue_key (parts.getD 0 "") (parts.getD 1 "") ri.number

/-- The `ConsolidatedIssue` stored on first sighting (lines 255-269): the
fresh record with its labels cached by the `labels` property access and its
`issue_type` classified by the label-precedence chain. -/
def createConsolidated (repository_id : String) (ri : RepoIssue) : ConsolidatedIssue :=
  let c := ConsolidatedIssue.init repository_id (some ri)
  let p := c.labelsGet
  let labels := p.1
  let c := p.2
  let issue_type :=
    if labels.contains DOC_USER_STORY_LABEL then "UserStoryIssue"
    else if labels.contains DOC_FEATURE_LABEL then "FeatureIssue"
    else if labels.contains DOC_FUNCTIONALITY_LABEL then "FunctionalityIssue"
    else "Issue"
  { c with issue_type := issue_type }

/-- One iteration of the consolidation loop body (lines 252-279). -/
def consolidateStep (m : List (String × ConsolidatedIssue)) (repository_id : String)
    (ri : RepoIssue) : List (String × ConsolidatedIssue) :=
  let key := repoIssueKey repository_id ri
  match dictLookup m key with
  | none => dictSet m key (createConsolidated repository_id ri)
  | some c =>
    dictSet m key { c with errors := dictSet c.errors "multiple_labels" multipleLabelsMessage }

/-- The first phase of `_consolidate_issues_data`: the nested loop over
repositories and their issues. -/
def consolidatePhase1 (repository_issues : List (String × List RepoIssue)) :
    List (String × ConsolidatedIssue) :=
  repository_issues.foldl
    (fun m p => p.2.foldl (fun m ri => consolidateStep m p.1 ri) m) []

/-- The second phase (lines 281-286): merge the project statuses under the
same key, in fetch order, when the key appears in the project-issues map. -/
def mergeProjectData (c : ConsolidatedIssue) (o : Option (List ProjectIssue)) :
    ConsolidatedIssue :=
  match o with
  | none => c
  | some pis => pis.foldl (fun c pi => c.update_with_project_data pi.project_status) c

/-- `_consolidate_issues_data` (`collector.py` lines 235-292). -/
def _consolidate_issues_data (repository_issues : List (String × List RepoIssue))
    (project_issues : List (String × List ProjectIssue)) :
    List (String × ConsolidatedIssue) :=
  (consolidatePhase1 repository_issues).map
    (fun p => (p.1, mergeProjectData p.2 (dictLookup project_issues p.1)))

-- ## GraphQL pagination (`doc_issues/github_projects.py`, absent from src)

/-- One GraphQL items page: the raw nodes plus the `hasNextPage` flag. -/
structure ProjectPage where
  nodes : List ProjectItemJson
  hasNextPage : Bool
deriving DecidableEq, Repr

/-- Modelled from the spec: the paginated node parse of
`GitHubProjects.get_project_issues` — each raw node is passed to
`ProjectIssue.loads`; nodes failing to parse are dropped. -/
def parsedNodes (project : GitHubProject) (page : ProjectPage) : List ProjectIssue :=
  page.nodes.filterMap (fun n => ProjectIssue.loads {} n project)

/-- Modelled from the spec: the cursor loop of
`GitHubProjects.get_project_issues` (`doc_issues/github_projects.py` is absent
from the sources; §4.2 of the spec and its tests describe it).  The sequence
of GraphQL responses is supplied as a list, `none` standing for "no usable
response"; the loop accumulates parsed nodes until `hasNextPage` is false or
a response is unusable, returning what was accumulated so far. -/
def getProjectIssuesLoop (project : GitHubProject) (acc : List ProjectIssue) :
    List (Option ProjectPage) → List ProjectIssue
  | [] => acc
  | none :: _ => acc
  | some page :: rest =>
    let acc := acc ++ parsedNodes project page
    if page.hasNextPage then getProjectIssuesLoop project acc rest else acc

/-- Modelled from the spec: `GitHubProjects.get_project_issues`. -/
def get_project_issues (project : GitHubProject) (responses : List (Option ProjectPage)) :
    List ProjectIssue :=
  getProjectIssuesLoop project [] responses

/-- The pages the loop actually consumes: everything up to and including the
first page with `hasNextPage = false`, stopping before any unusable
response. -/
def consumedPages : List (Option ProjectPage) → List ProjectPage
  | [] => []
  | none :: _ => []
  | some page :: rest => if page.hasNextPage then page :: consumedPages rest else [page]

-- ## Auxiliary notions used by the statements

/-- The consolidation loop visits the nested repository-issues map as this
flat sequence of `(repository_id, issue)` pairs. -/
def flattenRepositoryIssues : List (String × List RepoIssue) → List (String × RepoIssue)
  | [] => []
  | (rid, l) :: rest => l.map (fun ri => (rid, ri)) ++ flattenRepositoryIssues rest

/-- How many sightings of composite key `k` the consolidation loop sees. -/
def countKeyed (k : String) (l : List (String × RepoIssue)) : Nat :=
  l.countP (fun e => repoIssueKey e.1 e.2 == k)

/-- Phase one of the consolidation, folded over the flattened sequence. -/
def consolidateFlat (l : List (String × RepoIssue)) : List (String × ConsolidatedIssue) :=
  l.foldl (fun m e => consolidateStep m e.1 e.2) []

/-- The `{action, timestamp, actor?}` prefix of a parsed timeline event. -/
def eventBaseDict (e : TimelineEvent) (t : String) : List (String × Option String) :=
  match e.actor with
  | some login => [("action", some t), ("timestamp", e.created_at)] ++ [("actor", some login)]
  | none => [("action", some t), ("timestamp", e.created_at)]

/-- The consolidated-issue states producible by the program: a freshly
constructed record, mutated only through the operations the code performs
(type classification, label caching, error recording, project-data merge,
and the lazy audit fetch). -/
inductive Reachable : ConsolidatedIssue → Prop
  | init (repository_id : String) (issue : Option RepoIssue) :
      Reachable (ConsolidatedIssue.init repository_id issue)
  | setType (c : ConsolidatedIssue) (t : String) :
      Reachable c → Reachable { c with issue_type := t }
  | cacheLabels (c : ConsolidatedIssue) :
      Reachable c → Reachable c.labelsGet.2
  | addError (c : ConsolidatedIssue) (k v : String) :
      Reachable c → Reachable { c with errors := dictSet c.errors k v }
  | update (c : ConsolidatedIssue) (st : ProjectStatus) :
      Reachable c → Reachable (c.update_with_project_data st)
  | ensure (c : ConsolidatedIssue) :
      Reachable c → Reachable c.ensureAuditDataFetched

-- ## Concrete sample data used by the witnesses

/-- A small repository issue carrying the user-story label. -/
def sampleIssueA : RepoIssue :=
  { number := 1, title := "A", state := "open", created_at := "2024-01-01",
    updated_at := "2024-01-02", closed_at := "", html_url := "http://x/1",
    body := "b", labels := ["DocumentedUserStory"], user := some "alice",
    closed_by := .ok none, comments := 0, get_comments := .ok [],
    get_timeline := .ok [] }

/-- The same issue as fetched a second time under another supported label. -/
def sampleIssueA2 : RepoIssue :=
  { sampleIssueA with labels := ["DocumentedFeature", "DocumentedUserStory"] }

/-- An issue whose comment-list fetch fails while creator and closer resolve. -/
def sampleIssueFailingComments : RepoIssue :=
  { number := 7, title := "F", state := "closed", created_at := "2024-02-01",
    updated_at := "2024-02-02", closed_at := "2024-02-03", html_url := "http://x/7",
    body := "", labels := ["DocumentedFeature"], user := some "carol",
    closed_by := .ok (some "dave"), comments := 3, get_comments := .error (),
    get_timeline := .ok [] }

/-- The record the consolidation is expected to hold at key `org/repo#1`
after the sample double sighting. -/
def sampleDupConsolidated : ConsolidatedIssue :=
  { createConsolidated "org/repo" sampleIssueA with
    errors := [("multiple_labels", multipleLabelsMessage)] }

/-- A `labeled` timeline event that does not expose a `label` attribute. -/
def sampleLabeledNoAttrEvent : TimelineEvent :=
  { event := some "labeled", created_at := some "2024-03-01 10:00:00",
    actor := none, label := none, assignee := none, milestone := none }

/-- A fully-populated `labeled` timeline event. -/
def sampleLabeledEvent : TimelineEvent :=
  { event := some "labeled", created_at := some "2024-03-01 10:00:00",
    actor := some "erin", label := some (some "DocumentedFeature"),
    assignee := none, milestone := none }

/-- A configured repository whose lookup will fail in the sample run. -/
def sampleMissingConfig : ConfigRepository :=
  { organization_name := "org", repository_name := "missing",
    projects_title_filter := [] }

/-- A configured repository whose lookup succeeds in the sample run. -/
def sampleGoodConfig : ConfigRepository :=
  { organization_name := "org", repository_name := "good",
    projects_title_filter := [] }

/-- A sample environment: `org/good` resolves, everything else does not. -/
def sampleEnv : GithubEnv :=
  { get_repo := fun rid => if rid = "org/good" then some { full_name := "org/good" } else none,
    get_issues := fun _ _ => [sampleIssueA],
    get_repository_projects := fun _ _ => [],
    get_project_issues := fun _ => [] }

/-- A project-item node whose `content` is present but empty. -/
def sampleDegenerateNode : ProjectItemJson :=
  { content := some { number := none, repository := none }, fieldValues := none }

/-- A sample project board with no field vocabularies. -/
def sampleProject : GitHubProject := { title := "Board", field_options := [] }

/-- A well-formed project-item node for issue `org/good#1`. -/
def sampleGoodNode : ProjectItemJson :=
  { content := some
      { number := some 1,
        repository := some { name := some "good", owner := some { login := some "org" } } },
    fieldValues := none }

/-- Two pages of sample GraphQL responses: two nodes, then one node, last. -/
def samplePages : List (Option ProjectPage) :=
  [some { nodes := [sampleGoodNode, sampleDegenerateNode], hasNextPage := true },
   some { nodes := [sampleGoodNode], hasNextPage := false }]

-- # Theorems

-- ## Dictionary laws

theorem dictLookup_dictSet_self {α : Type} (d : List (String × α)) (k : String) (v : α) :
    dictLookup (dictSet d k v) k = some v := by
  induction d with
  | nil => simp [dictSet, dictLookup]
  | cons p rest ih =>
    obtain ⟨k₀, v₀⟩ := p
    by_cases h : k₀ = k
    · subst h; simp [dictSet, dictLookup]
    · simp [dictSet, dictLookup, h, ih]

theorem dictLookup_dictSet_ne {α : Type} (d : List (String × α)) (k k' : String) (v : α)
    (h : k ≠ k') : dictLookup (dictSet d k v) k' = dictLookup d k' := by
  induction d with
  | nil => simp [dictSet, dictLookup, h]
  | cons p rest ih =>
    obtain ⟨k₀, v₀⟩ := p
    by_cases h0 : k₀ = k
    · subst h0; simp [dictSet, dictLookup, h]
    · simp [dictSet, dictLookup, h0, ih]

theorem dictSet_dictSet_same {α : Type} (d : List (String × α)) (k : String) (v : α) :
    dictSet (dictSet d k v) k v = dictSet d k v := by
  induction d with
  | nil => simp [dictSet]
  | cons p rest ih =>
    obtain ⟨k₀, v₀⟩ := p
    by_cases h : k₀ = k
    · subst h; simp [dictSet]
    · simp [dictSet, h, ih]

theorem dictLookup_map_values {α β : Type} (d : List (String × α)) (f : String → α → β)
    (k : String) :
    dictLookup (d.map (fun p => (p.1, f p.1 p.2))) k = (dictLookup d k).map (f k) := by
  induction d with
  | nil => simp [dictLookup]
  | cons p rest ih =>
    obtain ⟨k₀, v₀⟩ := p
    by_cases h : k₀ = k
    · subst h; simp [dictLookup]
    · simp [dictLookup, h, ih]

theorem string_contains_iff (l : List String) (a : String) : l.contains a = true ↔ a ∈ l :=
  ⟨fun h => List.mem_of_elem_eq_true h, fun h => List.elem_eq_true_of_mem h⟩

-- ## Consolidation-fold laws

theorem createConsolidated_errors (rid : String) (ri : RepoIssue) :
    (createConsolidated rid ri).errors = [] := rfl

theorem createConsolidated_issue (rid : String) (ri : RepoIssue) :
    (createConsolidated rid ri).issue = some ri := rfl

theorem createConsolidated_issue_type (rid : String) (ri : RepoIssue) :
    (createConsolidated rid ri).issue_type =
      (if ri.labels.contains DOC_USER_STORY_LABEL then "UserStoryIssue"
       else if ri.labels.contains DOC_FEATURE_LABEL then "FeatureIssue"
       else if ri.labels.contains DOC_FUNCTIONALITY_LABEL then "FunctionalityIssue"
       else "Issue") := rfl

theorem consolidateStep_lookup_ne (m : List (String × ConsolidatedIssue)) (rid : String)
    (ri : RepoIssue) (k : String) (h : repoIssueKey rid ri ≠ k) :
    dictLookup (consolidateStep m rid ri) k = dictLookup m k := by
  unfold consolidateStep
  cases hm : dictLookup m (repoIssueKey rid ri) with
  | none => simp [hm, dictLookup_dictSet_ne _ _ _ _ h]
  | some c => simp [hm, dictLookup_dictSet_ne _ _ _ _ h]

theorem consolidateStep_lookup_none (m : List (String × ConsolidatedIssue)) (rid : String)
    (ri : RepoIssue) (h : dictLookup m (repoIssueKey rid ri) = none) :
    dictLookup (consolidateStep m rid ri) (repoIssueKey rid ri)
      = some (createConsolidated rid ri) := by
  unfold consolidateStep
  simp [h, dictLookup_dictSet_self]

theorem consolidateStep_lookup_some (m : List (String × ConsolidatedIssue)) (rid : String)
    (ri : RepoIssue) (c : ConsolidatedIssue)
    (h : dictLookup m (repoIssueKey rid ri) = some c) :
    dictLookup (consolidateStep m rid ri) (repoIssueKey rid ri)
      = some { c with errors := dictSet c.errors "multiple_labels" multipleLabelsMessage } := by
  unfold consolidateStep
  simp [h, dictLookup_dictSet_self]

theorem consolidateFold_lookup_some (l : List (String × RepoIssue)) :
    ∀ (m : List (String × ConsolidatedIssue)) (k : String) (c : ConsolidatedIssue),
    dictLookup m k = some c →
    dictLookup (l.foldl (fun m e => consolidateStep m e.1 e.2) m) k =
      some { c with errors :=
        if (l.any (fun e => repoIssueKey e.1 e.2 == k))
        then dictSet c.errors "multiple_labels" multipleLabelsMessage
        else c.errors } := by
  induction l with
  | nil => intro m k c h; simpa using h
  | cons e l ih =>
    intro m k c h
    rw [List.foldl_cons]
    by_cases hk : repoIssueKey e.1 e.2 = k
    · have h' : dictLookup m (repoIssueKey e.1 e.2) = some c := by rw [hk]; exact h
      have hstep := consolidateStep_lookup_some m e.1 e.2 c h'
      rw [hk] at hstep
      rw [ih _ k _ hstep]
      have hbeq : (repoIssueKey e.1 e.2 == k) = true := by simp [hk]
      have hany : (((e :: l).any fun x => repoIssueKey x.1 x.2 == k)) = true := by
        rw [List.any_cons]; simp [hbeq]
      rw [hany]
      by_cases hl : ((l.any fun x => repoIssueKey x.1 x.2 == k)) = true
      · rw [hl]
        simp [dictSet_dictSet_same]
      · have hl' : ((l.any fun x => repoIssueKey x.1 x.2 == k)) = false := by
          revert hl
          cases (l.any fun x => repoIssueKey x.1 x.2 == k) <;> simp
        rw [hl']
        simp
    · have hstep : dictLookup (consolidateStep m e.1 e.2) k = some c := by
        rw [consolidateStep_lookup_ne m e.1 e.2 k hk]; exact h
      rw [ih _ k c hstep]
      have hbeq : (repoIssueKey e.1 e.2 == k) = false := by
        simp [hk]
      have hany : (((e :: l).any fun x => repoIssueKey x.1 x.2 == k))
          = ((l.any fun x => repoIssueKey x.1 x.2 == k)) := by
        rw [List.any_cons]; simp [hbeq]
      rw [hany]

theorem consolidateFold_lookup_of_none (l : List (String × RepoIssue)) :
    ∀ (m : List (String × ConsolidatedIssue)) (k : String),
    dictLookup m k = none →
    dictLookup (l.foldl (fun m e => consolidateStep m e.1 e.2) m) k
      = dictLookup (consolidateFlat l) k := by
  induction l with
  | nil => intro m k h; simpa [consolidateFlat, dictLookup] using h
  | cons e l ih =>
    intro m k h
    have hflat : consolidateFlat (e :: l)
        = l.foldl (fun m e => consolidateStep m e.1 e.2) (consolidateStep [] e.1 e.2) := by
      simp [consolidateFlat, List.foldl_cons]
    rw [List.foldl_cons, hflat]
    by_cases hk : repoIssueKey e.1 e.2 = k
    · have h' : dictLookup m (repoIssueKey e.1 e.2) = none := by rw [hk]; exact h
      have h1 := consolidateStep_lookup_none m e.1 e.2 h'
      have h2 := consolidateStep_lookup_none [] e.1 e.2 (by simp [dictLookup])
      rw [hk] at h1 h2
      rw [consolidateFold_lookup_some l _ k _ h1, consolidateFold_lookup_some l _ k _ h2]
    · have h1 : dictLookup (consolidateStep m e.1 e.2) k = none := by
        rw [consolidateStep_lookup_ne m e.1 e.2 k hk]; exact h
      have h2 : dictLookup (consolidateStep [] e.1 e.2) k = none := by
        rw [consolidateStep_lookup_ne _ e.1 e.2 k hk]; simp [dictLookup]
      rw [ih _ k h1, ← ih _ k h2]

theorem any_iff_countKeyed_pos (l : List (String × RepoIssue)) (k : String) :
    (l.any fun e => repoIssueKey e.1 e.2 == k) = true ↔ 0 < countKeyed k l := by
  rw [countKeyed, List.any_eq_true, List.countP_pos_iff]

theorem consolidateFlat_lookup (l : List (String × RepoIssue)) (k : String) :
    dictLookup (consolidateFlat l) k =
      (l.find? (fun e => repoIssueKey e.1 e.2 == k)).map
        (fun e => { createConsolidated e.1 e.2 with
          errors := if 2 ≤ countKeyed k l
                    then [("multiple_labels", multipleLabelsMessage)] else [] }) := by
  induction l with
  | nil => simp [consolidateFlat, dictLookup]
  | cons e l ih =>
    have hflat : consolidateFlat (e :: l)
        = l.foldl (fun m e => consolidateStep m e.1 e.2) (consolidateStep [] e.1 e.2) := by
      simp [consolidateFlat, List.foldl_cons]
    rw [hflat]
    by_cases hk : repoIssueKey e.1 e.2 = k
    · have hbeq : (repoIssueKey e.1 e.2 == k) = true := by simp [hk]
      have h2 := consolidateStep_lookup_none [] e.1 e.2 (by simp [dictLookup])
      rw [hk] at h2
      rw [consolidateFold_lookup_some l _ k _ h2]
      have hfind : List.find? (fun x => repoIssueKey x.1 x.2 == k) (e :: l) = some e := by
        rw [List.find?_cons]; simp [hbeq]
      rw [hfind, Option.map_some']
      have hcount : countKeyed k (e :: l) = countKeyed k l + 1 := by
        simp [countKeyed, List.countP_cons, hbeq]
      by_cases hl : (l.any fun x => repoIssueKey x.1 x.2 == k) = true
      · have hpos : 0 < countKeyed k l := (any_iff_countKeyed_pos l k).mp hl
        have h2c : 2 ≤ countKeyed k (e :: l) := by omega
        rw [if_pos hl, if_pos h2c, createConsolidated_errors]
        rfl
      · have hnpos : ¬(0 < countKeyed k l) := fun hp =>
          hl ((any_iff_countKeyed_pos l k).mpr hp)
        have h2c : ¬(2 ≤ countKeyed k (e :: l)) := by
          rw [hcount]; omega
        rw [if_neg hl, if_neg h2c, createConsolidated_errors]
    · have hbeq : (repoIssueKey e.1 e.2 == k) = false := by simp [hk]
      have h2 : dictLookup (consolidateStep [] e.1 e.2) k = none := by
        rw [consolidateStep_lookup_ne _ e.1 e.2 k hk]; simp [dictLookup]
      rw [consolidateFold_lookup_of_none l _ k h2, ih]
      have hfind : List.find? (fun x => repoIssueKey x.1 x.2 == k) (e :: l)
          = List.find? (fun x => repoIssueKey x.1 x.2 == k) l := by
        rw [List.find?_cons]; simp [hbeq]
      rw [hfind]
      have hcount : countKeyed k (e :: l) = countKeyed k l := by
        simp [countKeyed, List.countP_cons, hbeq]
      rw [hcount]

theorem consolidatePhase1_eq_flat (ris : List (String × List RepoIssue)) :
    consolidatePhase1 ris = consolidateFlat (flattenRepositoryIssues ris) := by
  suffices h : ∀ (ris : List (String × List RepoIssue)) m,
      ris.foldl (fun m p => p.2.foldl (fun m ri => consolidateStep m p.1 ri) m) m
        = (flattenRepositoryIssues ris).foldl (fun m e => consolidateStep m e.1 e.2) m by
    exact h ris []
  intro ris
  induction ris with
  | nil => intro m; rfl
  | cons p rest ih =>
    obtain ⟨rid, l⟩ := p
    intro m
    simp only [List.foldl_cons, flattenRepositoryIssues, List.foldl_append, List.foldl_map]
    exact ih _

theorem mergeProjectData_frame (o : Option (List ProjectIssue)) (c : ConsolidatedIssue) :
    (mergeProjectData c o).issue = c.issue ∧
    (mergeProjectData c o).issue_type = c.issue_type ∧
    (mergeProjectData c o).errors = c.errors := by
  cases o with
  | none => exact ⟨rfl, rfl, rfl⟩
  | some pis =>
    induction pis generalizing c with
    | nil => exact ⟨rfl, rfl, rfl⟩
    | cons pi pis ih =>
      simpa only [mergeProjectData, List.foldl_cons]
        using ih (c.update_with_project_data pi.project_status)

theorem consolidated_lookup_char (ris : List (String × List RepoIssue))
    (pis : List (String × List ProjectIssue)) (k : String) :
    dictLookup (_consolidate_issues_data ris pis) k =
      ((flattenRepositoryIssues ris).find? (fun e => repoIssueKey e.1 e.2 == k)).map
        (fun e => mergeProjectData
          { createConsolidated e.1 e.2 with
            errors := if 2 ≤ countKeyed k (flattenRepositoryIssues ris)
                      then [("multiple_labels", multipleLabelsMessage)] else [] }
          (dictLookup pis k)) := by
  unfold _consolidate_issues_data
  rw [dictLookup_map_values (consolidatePhase1 ris) (fun key c => mergeProjectData c (dictLookup pis key)) k]
  rw [consolidatePhase1_eq_flat, consolidateFlat_lookup]
  cases (flattenRepositoryIssues ris).find? (fun e => repoIssueKey e.1 e.2 == k) with
  | none => rfl
  | some e => rfl

-- ## Claim C1

/-- C1: during consolidation, a second (or later) sighting of a composite key
never overwrites the first stored `ConsolidatedIssue`: the final record under
that key is exactly the record created at the first sighting — same backing
issue, same `issue_type` classification, same every other field — except that
its error bag holds the `"multiple_labels"` entry (project-data merging, which
applies to every record alike, is applied on top). -/
theorem consolidate_second_sighting_preserves_record
    (ris : List (String × List RepoIssue)) (pis : List (String × List ProjectIssue))
    (k : String) (c : ConsolidatedIssue)
    (hc : dictLookup (_consolidate_issues_data ris pis) k = some c)
    (hdup : 2 ≤ countKeyed k (flattenRepositoryIssues ris)) :
    ∃ e, (flattenRepositoryIssues ris).find? (fun x => repoIssueKey x.1 x.2 == k) = some e ∧
      c = mergeProjectData
            { createConsolidated e.1 e.2 with
              errors := [("multiple_labels", multipleLabelsMessage)] }
            (dictLookup pis k) ∧
      c.issue = some e.2 ∧
      c.issue_type = (createConsolidated e.1 e.2).issue_type ∧
      c.errors = [("multiple_labels", multipleLabelsMessage)] := by
  rw [consolidated_lookup_char] at hc
  cases hfind : (flattenRepositoryIssues ris).find? (fun x => repoIssueKey x.1 x.2 == k) with
  | none => rw [hfind] at hc; simp at hc
  | some e =>
    rw [hfind, Option.map_some', if_pos hdup] at hc
    have hxc : c = mergeProjectData
        { createConsolidated e.1 e.2 with
          errors := [("multiple_labels", multipleLabelsMessage)] }
        (dictLookup pis k) := (Option.some.inj hc).symm
    obtain ⟨hiss, hty, herr⟩ := mergeProjectData_frame (dictLookup pis k)
      { createConsolidated e.1 e.2 with
        errors := [("multiple_labels", multipleLabelsMessage)] }
    refine ⟨e, rfl, hxc, ?_, ?_, ?_⟩
    · rw [hxc, hiss]; exact createConsolidated_issue e.1 e.2
    · rw [hxc, hty]
    · rw [hxc, herr]

/-- Witness for C1 at a concrete double sighting. -/
theorem consolidate_second_sighting_preserves_record_witness :
    ∃ e, (flattenRepositoryIssues [("org/repo", [sampleIssueA, sampleIssueA2])]).find?
        (fun x => repoIssueKey x.1 x.2 == "org/repo#1") = some e ∧
      sampleDupConsolidated = mergeProjectData
            { createConsolidated e.1 e.2 with
              errors := [("multiple_labels", multipleLabelsMessage)] }
            (dictLookup [] "org/repo#1") ∧
      sampleDupConsolidated.issue = some e.2 ∧
      sampleDupConsolidated.issue_type = (createConsolidated e.1 e.2).issue_type ∧
      sampleDupConsolidated.errors = [("multiple_labels", multipleLabelsMessage)] :=
  consolidate_second_sighting_preserves_record
    [("org/repo", [sampleIssueA, sampleIssueA2])] [] "org/repo#1" sampleDupConsolidated
    (by decide) (by decide)

-- ## Claim C3

/-- C3: the `issue_type` of the record a key ends up with is classified from
the label set of the issue seen at the first sighting of that key, by the
precedence user-story > feature > functionality > generic `"Issue"`. -/
theorem first_sighting_issue_type_precedence
    (ris : List (String × List RepoIssue)) (pis : List (String × List ProjectIssue))
    (k : String) (c : ConsolidatedIssue)
    (hc : dictLookup (_consolidate_issues_data ris pis) k = some c) :
    ∃ e, (flattenRepositoryIssues ris).find? (fun x => repoIssueKey x.1 x.2 == k) = some e ∧
      (DOC_USER_STORY_LABEL ∈ e.2.labels → c.issue_type = "UserStoryIssue") ∧
      (DOC_USER_STORY_LABEL ∉ e.2.labels → DOC_FEATURE_LABEL ∈ e.2.labels →
        c.issue_type = "FeatureIssue") ∧
      (DOC_USER_STORY_LABEL ∉ e.2.labels → DOC_FEATURE_LABEL ∉ e.2.labels →
        DOC_FUNCTIONALITY_LABEL ∈ e.2.labels → c.issue_type = "FunctionalityIssue") ∧
      (DOC_USER_STORY_LABEL ∉ e.2.labels → DOC_FEATURE_LABEL ∉ e.2.labels →
        DOC_FUNCTIONALITY_LABEL ∉ e.2.labels → c.issue_type = "Issue") := by
  rw [consolidated_lookup_char] at hc
  cases hfind : (flattenRepositoryIssues ris).find? (fun x => repoIssueKey x.1 x.2 == k) with
  | none => rw [hfind] at hc; simp at hc
  | some e =>
    rw [hfind, Option.map_some'] at hc
    have hxc := (Option.some.inj hc).symm
    obtain ⟨hiss, hty, herr⟩ := mergeProjectData_frame (dictLookup pis k)
      { createConsolidated e.1 e.2 with
        errors := if 2 ≤ countKeyed k (flattenRepositoryIssues ris)
                  then [("multiple_labels", multipleLabelsMessage)] else [] }
    have htype : c.issue_type = (createConsolidated e.1 e.2).issue_type := by
      rw [hxc, hty]
    rw [createConsolidated_issue_type] at htype
    refine ⟨e, rfl, ?_, ?_, ?_, ?_⟩
    · intro hus
      have h1 : e.2.labels.contains DOC_USER_STORY_LABEL = true :=
        (string_contains_iff _ _).mpr hus
      rw [htype, if_pos h1]
    · intro hnus hf
      have h1 : ¬(e.2.labels.contains DOC_USER_STORY_LABEL = true) := fun hh =>
        hnus ((string_contains_iff _ _).mp hh)
      have h2 : e.2.labels.contains DOC_FEATURE_LABEL = true :=
        (string_contains_iff _ _).mpr hf
      rw [htype, if_neg h1, if_pos h2]
    · intro hnus hnf hfu
      have h1 : ¬(e.2.labels.contains DOC_USER_STORY_LABEL = true) := fun hh =>
        hnus ((string_contains_iff _ _).mp hh)
      have h2 : ¬(e.2.labels.contains DOC_FEATURE_LABEL = true) := fun hh =>
        hnf ((string_contains_iff _ _).mp hh)
      have h3 : e.2.labels.contains DOC_FUNCTIONALITY_LABEL = true :=
        (string_contains_iff _ _).mpr hfu
      rw [htype, if_neg h1, if_neg h2, if_pos h3]
    · intro hnus hnf hnfu
      have h1 : ¬(e.2.labels.contains DOC_USER_STORY_LABEL = true) := fun hh =>
        hnus ((string_contains_iff _ _).mp hh)
      have h2 : ¬(e.2.labels.contains DOC_FEATURE_LABEL = true) := fun hh =>
        hnf ((string_contains_iff _ _).mp hh)
      have h3 : ¬(e.2.labels.contains DOC_FUNCTIONALITY_LABEL = true) := fun hh =>
        hnfu ((string_contains_iff _ _).mp hh)
      rw [htype, if_neg h1, if_neg h2, if_neg h3]

/-- Witness for C3 at a concrete user-story-labelled first sighting. -/
theorem first_sighting_issue_type_precedence_witness :
    ∃ e, (flattenRepositoryIssues [("org/repo", [sampleIssueA, sampleIssueA2])]).find?
        (fun x => repoIssueKey x.1 x.2 == "org/repo#1") = some e ∧
      (DOC_USER_STORY_LABEL ∈ e.2.labels →
        sampleDupConsolidated.issue_type = "UserStoryIssue") ∧
      (DOC_USER_STORY_LABEL ∉ e.2.labels → DOC_FEATURE_LABEL ∈ e.2.labels →
        sampleDupConsolidated.issue_type = "FeatureIssue") ∧
      (DOC_USER_STORY_LABEL ∉ e.2.labels → DOC_FEATURE_LABEL ∉ e.2.labels →
        DOC_FUNCTIONALITY_LABEL ∈ e.2.labels →
        sampleDupConsolidated.issue_type = "FunctionalityIssue") ∧
      (DOC_USER_STORY_LABEL ∉ e.2.labels → DOC_FEATURE_LABEL ∉ e.2.labels →
        DOC_FUNCTIONALITY_LABEL ∉ e.2.labels →
        sampleDupConsolidated.issue_type = "Issue") :=
  first_sighting_issue_type_precedence
    [("org/repo", [sampleIssueA, sampleIssueA2])] [] "org/repo#1" sampleDupConsolidated
    (by decide)

-- ## Claim C10

/-- C10: the error bag of every consolidated record maps each error kind to at
most one message: its keys are duplicate-free and N ≥ 2 sightings of a key
produce exactly one `"multiple_labels"` entry with the fixed message, never N
accumulated entries. -/
theorem error_bag_at_most_one_multiple_labels
    (ris : List (String × List RepoIssue)) (pis : List (String × List ProjectIssue))
    (k : String) (c : ConsolidatedIssue)
    (hc : dictLookup (_consolidate_issues_data ris pis) k = some c) :
    (c.errors.map Prod.fst).Nodup ∧
    c.errors = (if 2 ≤ countKeyed k (flattenRepositoryIssues ris)
                then [("multiple_labels", multipleLabelsMessage)] else []) ∧
    c.errors.countP (fun p => p.1 == "multiple_labels") ≤ 1 := by
  rw [consolidated_lookup_char] at hc
  cases hfind : (flattenRepositoryIssues ris).find? (fun x => repoIssueKey x.1 x.2 == k) with
  | none => rw [hfind] at hc; simp at hc
  | some e =>
    rw [hfind, Option.map_some'] at hc
    have hxc := (Option.some.inj hc).symm
    obtain ⟨hiss, hty, herr⟩ := mergeProjectData_frame (dictLookup pis k)
      { createConsolidated e.1 e.2 with
        errors := if 2 ≤ countKeyed k (flattenRepositoryIssues ris)
                  then [("multiple_labels", multipleLabelsMessage)] else [] }
    have herrs : c.errors = (if 2 ≤ countKeyed k (flattenRepositoryIssues ris)
        then [("multiple_labels", multipleLabelsMessage)] else []) := by
      rw [hxc, herr]
    refine ⟨?_, herrs, ?_⟩
    · rw [herrs]; split <;> simp
    · rw [herrs]; split <;> simp

/-- Witness for C10 at the concrete double sighting. -/
theorem error_bag_at_most_one_multiple_labels_witness :
    (sampleDupConsolidated.errors.map Prod.fst).Nodup ∧
    sampleDupConsolidated.errors =
      (if 2 ≤ countKeyed "org/repo#1"
            (flattenRepositoryIssues [("org/repo", [sampleIssueA, sampleIssueA2])])
       then [("multiple_labels", multipleLabelsMessage)] else []) ∧
    sampleDupConsolidated.errors.countP (fun p => p.1 == "multiple_labels") ≤ 1 :=
  error_bag_at_most_one_multiple_labels
    [("org/repo", [sampleIssueA, sampleIssueA2])] [] "org/repo#1" sampleDupConsolidated
    (by decide)

-- ## Claim C2

/-- C2: when the repository-handle lookup returns nothing for any one
configured repository, the whole fetch stage — both `_fetch_github_issues`
and `_fetch_github_project_issues` — returns an empty mapping for the entire
run, discarding whatever was accumulated for previously processed
repositories. -/
theorem repo_lookup_failure_empties_whole_fetch
    (env : GithubEnv) (miningEnabled : Bool) (repositories : List ConfigRepository)
    (cfg : ConfigRepository) (hmem : cfg ∈ repositories)
    (hnone : env.get_repo (configRepoId cfg) = none) :
    _fetch_github_issues env repositories = [] ∧
    _fetch_github_project_issues env miningEnabled repositories = [] := by
  have hissues : ∀ (l : List ConfigRepository), cfg ∈ l →
      ∀ (acc : List (String × List RepoIssue)), fetchIssuesLoop env acc l = [] := by
    intro l
    induction l with
    | nil => intro h; exact absurd h (List.not_mem_nil cfg)
    | cons r rest ih =>
      intro hm acc
      rcases List.mem_cons.mp hm with heq | hrest
      · subst heq
        simp [fetchIssuesLoop, hnone]
      · cases hr : env.get_repo (configRepoId r) with
        | none => simp [fetchIssuesLoop, hr]
        | some repo =>
          simp only [fetchIssuesLoop, hr]
          exact ih hrest _
  have hproj : ∀ (l : List ConfigRepository), cfg ∈ l →
      ∀ (acc : List (String × List ProjectIssue)), fetchProjectIssuesLoop env acc l = [] := by
    intro l
    induction l with
    | nil => intro h; exact absurd h (List.not_mem_nil cfg)
    | cons r rest ih =>
      intro hm acc
      rcases List.mem_cons.mp hm with heq | hrest
      · subst heq
        simp [fetchProjectIssuesLoop, hnone]
      · cases hr : env.get_repo (configRepoId r) with
        | none => simp [fetchProjectIssuesLoop, hr]
        | some repo =>
          simp only [fetchProjectIssuesLoop, hr]
          exact ih hrest _
  refine ⟨hissues repositories hmem [], ?_⟩
  unfold _fetch_github_project_issues
  cases miningEnabled with
  | false => rfl
  | true => simpa using hproj repositories hmem []

/-- Witness for C2: the sample run has a resolvable first repository and an
unresolvable second one; both fetches come back empty. -/
theorem repo_lookup_failure_empties_whole_fetch_witness :
    _fetch_github_issues sampleEnv [sampleGoodConfig, sampleMissingConfig] = [] ∧
    _fetch_github_project_issues sampleEnv true [sampleGoodConfig, sampleMissingConfig] = [] :=
  repo_lookup_failure_empties_whole_fetch sampleEnv true
    [sampleGoodConfig, sampleMissingConfig] sampleMissingConfig
    (by decide) (by decide)

-- ## Lazy audit fetch laws

theorem ensureAuditDataFetched_of_flag (c : ConsolidatedIssue)
    (h : c.audit_data_fetched = true) : c.ensureAuditDataFetched = c := by
  simp [ConsolidatedIssue.ensureAuditDataFetched, h]

theorem ensureAuditDataFetched_of_no_issue (c : ConsolidatedIssue)
    (h : c.issue = none) : c.ensureAuditDataFetched = c := by
  simp [ConsolidatedIssue.ensureAuditDataFetched, h]

theorem ensureAuditDataFetched_issue (c : ConsolidatedIssue) :
    (c.ensureAuditDataFetched).issue = c.issue := by
  unfold ConsolidatedIssue.ensureAuditDataFetched
  repeat' split
  all_goals rfl

theorem ensureAuditDataFetched_flag (c : ConsolidatedIssue) (i : RepoIssue)
    (hf : c.audit_data_fetched = false) (hi : c.issue = some i) :
    (c.ensureAuditDataFetched).audit_data_fetched = true := by
  simp only [ConsolidatedIssue.ensureAuditDataFetched, hf, hi]
  repeat' split
  all_goals simp_all

theorem labelsGet_snd_fields (c : ConsolidatedIssue) :
    (c.labelsGet.2).issue = c.issue ∧ (c.labelsGet.2).created_by = c.created_by ∧
    (c.labelsGet.2).closed_by = c.closed_by ∧
    (c.labelsGet.2).comments_count = c.comments_count ∧
    (c.labelsGet.2).last_commented_at = c.last_commented_at ∧
    (c.labelsGet.2).last_commented_by = c.last_commented_by ∧
    (c.labelsGet.2).audit_events = c.audit_events := by
  unfold ConsolidatedIssue.labelsGet
  repeat' split
  all_goals exact ⟨rfl, rfl, rfl, rfl, rfl, rfl, rfl⟩

theorem reachable_no_issue_defaults (c : ConsolidatedIssue) (h : Reachable c) :
    c.issue = none →
      c.created_by = none ∧ c.closed_by = none ∧ c.comments_count = 0 ∧
      c.last_commented_at = none ∧ c.last_commented_by = none ∧ c.audit_events = [] := by
  induction h with
  | init rid issue => intro _; exact ⟨rfl, rfl, rfl, rfl, rfl, rfl⟩
  | setType c t hr ih => intro h; exact ih h
  | cacheLabels c hr ih =>
    intro h
    obtain ⟨f1, f2, f3, f4, f5, f6, f7⟩ := labelsGet_snd_fields c
    rw [f1] at h
    obtain ⟨g1, g2, g3, g4, g5, g6⟩ := ih h
    exact ⟨f2.trans g1, f3.trans g2, f4.trans g3, f5.trans g4, f6.trans g5, f7.trans g6⟩
  | addError c k v hr ih => intro h; exact ih h
  | update c st hr ih => intro h; exact ih h
  | ensure c hr ih =>
    intro h
    have hci : c.issue = none := by rw [← ensureAuditDataFetched_issue c]; exact h
    rw [ensureAuditDataFetched_of_no_issue c hci]
    exact ih hci

theorem mem_map_fst_auditEntry (b : Bool) (k k' : String) (v : AuditValue) :
    k' ∈ (auditEntry b k v).map Prod.fst ↔ (b = true ∧ k' = k) := by
  cases b <;> simp [auditEntry]

theorem pair_mem_auditEntry (b : Bool) (k k' : String) (v x : AuditValue) :
    ((k', x) ∈ auditEntry b k v) ↔ (b = true ∧ k' = k ∧ x = v) := by
  cases b <;> simp [auditEntry, and_assoc]

-- ## Claim C5

/-- C5: the lazy audit fetch executes at most once per record: it is a no-op
when no backing issue is attached or once the fetched flag is set; whenever a
backing issue is attached, one call sets the flag — regardless of how the
fetch went, including partway failures carried by the issue's `Except`-valued
sub-fetches — and the transition is idempotent, so the state never changes
again and no further remote fetch is performed. -/
theorem ensure_audit_fetch_at_most_once (c : ConsolidatedIssue) :
    (c.issue = none → c.ensureAuditDataFetched = c) ∧
    (c.audit_data_fetched = true → c.ensureAuditDataFetched = c) ∧
    (c.issue.isSome = true → (c.ensureAuditDataFetched).audit_data_fetched = true) ∧
    c.ensureAuditDataFetched.ensureAuditDataFetched = c.ensureAuditDataFetched := by
  have h2 : c.issue.isSome = true → (c.ensureAuditDataFetched).audit_data_fetched = true := by
    intro hs
    by_cases hf : c.audit_data_fetched = true
    · rw [ensureAuditDataFetched_of_flag c hf]; exact hf
    · have hf' : c.audit_data_fetched = false := by
        revert hf; cases c.audit_data_fetched <;> simp
      obtain ⟨i, hi⟩ := Option.isSome_iff_exists.mp hs
      exact ensureAuditDataFetched_flag c i hf' hi
  refine ⟨ensureAuditDataFetched_of_no_issue c, ensureAuditDataFetched_of_flag c, h2, ?_⟩
  cases hi : c.issue with
  | none =>
    rw [ensureAuditDataFetched_of_no_issue c hi, ensureAuditDataFetched_of_no_issue c hi]
  | some i =>
    exact ensureAuditDataFetched_of_flag _ (h2 (by rw [hi]; rfl))

/-- Witness for C5: a record without a backing issue is untouched, a record
with the fetched flag set is untouched, and a record with a backing issue
whose comment fetch fails still ends up flagged as fetched. -/
theorem ensure_audit_fetch_at_most_once_witness :
    (ConsolidatedIssue.init "org/repo" none).ensureAuditDataFetched
      = ConsolidatedIssue.init "org/repo" none ∧
    ({ ConsolidatedIssue.init "org/repo" (some sampleIssueA) with
        audit_data_fetched := true } : ConsolidatedIssue).ensureAuditDataFetched
      = { ConsolidatedIssue.init "org/repo" (some sampleIssueA) with
          audit_data_fetched := true } ∧
    ((ConsolidatedIssue.init "org/repo"
        (some sampleIssueFailingComments)).ensureAuditDataFetched).audit_data_fetched
      = true :=
  ⟨(ensure_audit_fetch_at_most_once (ConsolidatedIssue.init "org/repo" none)).1 rfl,
   (ensure_audit_fetch_at_most_once
      { ConsolidatedIssue.init "org/repo" (some sampleIssueA) with
        audit_data_fetched := true }).2.1 rfl,
   (ensure_audit_fetch_at_most_once
      (ConsolidatedIssue.init "org/repo" (some sampleIssueFailingComments))).2.2.1 rfl⟩

-- ## Claim C7

/-- C7: when the backing issue reports a positive comment count but the
comment-list fetch fails, the failure is absorbed: the last-comment fields
stay absent while the creator, the resolvable closer and the comment count are
populated, the fetched flag is set, and the audit fetch still proceeds to the
timeline — the transition is total, so neither the audit fetch nor the run is
aborted. -/
theorem comment_fetch_failure_degrades_gracefully
    (c : ConsolidatedIssue) (i : RepoIssue) (u : String) (cb : Option String)
    (hi : c.issue = some i) (hf : c.audit_data_fetched = false)
    (hla : c.last_commented_at = none) (hlb : c.last_commented_by = none)
    (hcm : 0 < i.comments) (hgc : i.get_comments = .error ())
    (hcb : i.closed_by = .ok cb) (hu : i.user = some u) :
    (c.ensureAuditDataFetched).last_commented_at = none ∧
    (c.ensureAuditDataFetched).last_commented_by = none ∧
    (c.ensureAuditDataFetched).created_by = some u ∧
    (c.ensureAuditDataFetched).comments_count = i.comments ∧
    (cb.isSome = true → (c.ensureAuditDataFetched).closed_by = cb) ∧
    (c.ensureAuditDataFetched).audit_data_fetched = true ∧
    (c.ensureAuditDataFetched).audit_events = c.fetchAuditEvents := by
  by_cases hcbs : cb.isSome = true
  · refine ⟨?_, ?_, ?_, ?_, ?_, ?_, ?_⟩ <;>
      simp [ConsolidatedIssue.ensureAuditDataFetched, ConsolidatedIssue.fetchAuditEvents,
        hf, hi, hcb, hgc, hu, hcm, hcbs, hla, hlb]
  · have hcbs' : cb.isSome = false := by revert hcbs; cases cb <;> simp
    refine ⟨?_, ?_, ?_, ?_, ?_, ?_, ?_⟩ <;>
      simp [ConsolidatedIssue.ensureAuditDataFetched, ConsolidatedIssue.fetchAuditEvents,
        hf, hi, hcb, hgc, hu, hcm, hcbs', hla, hlb]

/-- Witness for C7 on the sample issue whose comment fetch fails. -/
theorem comment_fetch_failure_degrades_gracefully_witness :
    ((ConsolidatedIssue.init "org/repo"
        (some sampleIssueFailingComments)).ensureAuditDataFetched).last_commented_at = none ∧
    ((ConsolidatedIssue.init "org/repo"
        (some sampleIssueFailingComments)).ensureAuditDataFetched).last_commented_by = none ∧
    ((ConsolidatedIssue.init "org/repo"
        (some sampleIssueFailingComments)).ensureAuditDataFetched).created_by = some "carol" ∧
    ((ConsolidatedIssue.init "org/repo"
        (some sampleIssueFailingComments)).ensureAuditDataFetched).comments_count
      = sampleIssueFailingComments.comments ∧
    ((some "dave" : Option String).isSome = true →
      ((ConsolidatedIssue.init "org/repo"
          (some sampleIssueFailingComments)).ensureAuditDataFetched).closed_by = some "dave") ∧
    ((ConsolidatedIssue.init "org/repo"
        (some sampleIssueFailingComments)).ensureAuditDataFetched).audit_data_fetched = true ∧
    ((ConsolidatedIssue.init "org/repo"
        (some sampleIssueFailingComments)).ensureAuditDataFetched).audit_events
      = (ConsolidatedIssue.init "org/repo" (some sampleIssueFailingComments)).fetchAuditEvents :=
  comment_fetch_failure_degrades_gracefully
    (ConsolidatedIssue.init "org/repo" (some sampleIssueFailingComments))
    sampleIssueFailingComments "carol" (some "dave")
    rfl rfl rfl rfl (by decide) (by decide) (by decide) (by decide)

-- ## Claim C4

/-- C4: `get_audit_data` returns exactly the non-empty audit fields of the
(lazily fetched) record — each key is present precisely when the
corresponding field is truthy after the fetch: creator/closer/last-comment
fields when non-empty strings, the comment count when positive, the event
list when non-empty — and on any reachable record with no backing source
issue it returns the empty mapping. -/
theorem get_audit_data_exactly_nonempty_fields (c : ConsolidatedIssue) :
    (("created_by" ∈ (c.get_audit_data).map Prod.fst) ↔
      optTruthy (c.ensureAuditDataFetched).created_by = true) ∧
    (("closed_by" ∈ (c.get_audit_data).map Prod.fst) ↔
      optTruthy (c.ensureAuditDataFetched).closed_by = true) ∧
    (("comments_count" ∈ (c.get_audit_data).map Prod.fst) ↔
      0 < (c.ensureAuditDataFetched).comments_count) ∧
    (("last_commented_at" ∈ (c.get_audit_data).map Prod.fst) ↔
      optTruthy (c.ensureAuditDataFetched).last_commented_at = true) ∧
    (("last_commented_by" ∈ (c.get_audit_data).map Prod.fst) ↔
      optTruthy (c.ensureAuditDataFetched).last_commented_by = true) ∧
    (("audit_events" ∈ (c.get_audit_data).map Prod.fst) ↔
      (c.ensureAuditDataFetched).audit_events ≠ []) ∧
    (Reachable c → c.issue = none → c.get_audit_data = []) := by
  refine ⟨?_, ?_, ?_, ?_, ?_, ?_, ?_⟩
  · simp [ConsolidatedIssue.get_audit_data, pair_mem_auditEntry]
  · simp [ConsolidatedIssue.get_audit_data, pair_mem_auditEntry]
  · simp [ConsolidatedIssue.get_audit_data, pair_mem_auditEntry]
  · simp [ConsolidatedIssue.get_audit_data, pair_mem_auditEntry]
  · simp [ConsolidatedIssue.get_audit_data, pair_mem_auditEntry]
  · simp [ConsolidatedIssue.get_audit_data, pair_mem_auditEntry, List.isEmpty_iff]
  · intro hr hnone
    obtain ⟨h1, h2, h3, h4, h5, h6⟩ := reachable_no_issue_defaults c hr hnone
    simp [ConsolidatedIssue.get_audit_data, ensureAuditDataFetched_of_no_issue c hnone,
      h1, h2, h3, h4, h5, h6, auditEntry, optTruthy]

/-- Witness for C4: a freshly constructed record with no backing issue yields
an empty audit mapping. -/
theorem get_audit_data_exactly_nonempty_fields_witness :
    (ConsolidatedIssue.init "org/repo" none).get_audit_data = [] :=
  (get_audit_data_exactly_nonempty_fields
      (ConsolidatedIssue.init "org/repo" none)).2.2.2.2.2.2
    (Reachable.init "org/repo" none) rfl

-- ## Claim C6

theorem parse_timeline_event_eq (e : TimelineEvent) (t : String) (het : e.event = some t)
    (ht0 : ¬t = "") (hmem : relevant_events.contains t = true) :
    _parse_timeline_event e = some (
      if t = "labeled" ∨ t = "unlabeled" then
        match e.label with
        | some v => eventBaseDict e t ++ [("label", v)]
        | none => eventBaseDict e t
      else if t = "assigned" ∨ t = "unassigned" then
        match e.assignee with
        | some v => eventBaseDict e t ++ [("assignee", v)]
        | none => eventBaseDict e t
      else if t = "milestoned" ∨ t = "demilestoned" then
        match e.milestone with
        | some v => eventBaseDict e t ++ [("milestone", v)]
        | none => eventBaseDict e t
      else eventBaseDict e t) := by
  simp only [_parse_timeline_event, het, ht0, hmem, Bool.not_true, Bool.false_eq_true,
    if_false, eventBaseDict]

/-- Counterexample for C6 as stated: a `labeled` timeline event that does not
expose a `label` attribute is parsed into a record that carries no `label`
field at all. -/
theorem parse_timeline_event_labeled_without_label_attr :
    _parse_timeline_event sampleLabeledNoAttrEvent
      = some [("action", some "labeled"), ("timestamp", some "2024-03-01 10:00:00")] ∧
    ¬("label" ∈ ((_parse_timeline_event sampleLabeledNoAttrEvent).getD []).map Prod.fst) := by
  decide

/-- C6 (amended): `_parse_timeline_event` returns a structured event exactly
when the event kind is one of the eight relevant kinds; the returned record
carries the action and the timestamp, the actor when present, and — when the
event exposes the corresponding attribute — the correct event-specific field
(`label` for labeled/unlabeled, `assignee` for assigned/unassigned,
`milestone` for milestoned/demilestoned), and never a specific field of the
wrong kind. -/
theorem parse_timeline_event_characterization (e : TimelineEvent) :
    ((_parse_timeline_event e).isSome = true ↔
      ∃ t, e.event = some t ∧ t ∈ relevant_events) ∧
    (∀ t d, e.event = some t → _parse_timeline_event e = some d →
      (("action", some t) ∈ d ∧
       ("timestamp", e.created_at) ∈ d ∧
       (∀ a, e.actor = some a → ("actor", some a) ∈ d) ∧
       (e.actor = none → ∀ v, ("actor", v) ∉ d) ∧
       ((t = "labeled" ∨ t = "unlabeled") → ∀ lv, e.label = some lv → ("label", lv) ∈ d) ∧
       ((t = "assigned" ∨ t = "unassigned") → ∀ av, e.assignee = some av → ("assignee", av) ∈ d) ∧
       ((t = "milestoned" ∨ t = "demilestoned") → ∀ mv, e.milestone = some mv →
          ("milestone", mv) ∈ d) ∧
       (¬(t = "labeled" ∨ t = "unlabeled") → ∀ v, ("label", v) ∉ d) ∧
       (¬(t = "assigned" ∨ t = "unassigned") → ∀ v, ("assignee", v) ∉ d) ∧
       (¬(t = "milestoned" ∨ t = "demilestoned") → ∀ v, ("milestone", v) ∉ d))) := by
  constructor
  · cases he : e.event with
    | none => simp [_parse_timeline_event, he]
    | some t =>
      by_cases ht0 : t = ""
      · subst ht0
        simp [_parse_timeline_event, he, relevant_events]
      · cases hc : relevant_events.contains t with
        | true =>
          have hmem : t ∈ relevant_events := (string_contains_iff _ _).mp hc
          simp [parse_timeline_event_eq e t he ht0 hc, he, hmem]
        | false =>
          have hmem : ¬t ∈ relevant_events := by
            intro h
            rw [(string_contains_iff relevant_events t).mpr h] at hc
            cases hc
          simp [_parse_timeline_event, he, ht0, hc, hmem]
  · intro t d het hd
    have hne : _parse_timeline_event e ≠ none := by rw [hd]; simp
    have ht0 : ¬t = "" := by
      intro h
      subst h
      exact hne (by simp [_parse_timeline_event, het])
    have hmem : relevant_events.contains t = true := by
      cases hc : relevant_events.contains t with
      | true => rfl
      | false =>
        have hnm : ¬t ∈ relevant_events := by
          intro h
          rw [(string_contains_iff relevant_events t).mpr h] at hc
          cases hc
        exact absurd (by simp [_parse_timeline_event, het, ht0, hc, hnm]) hne
    rw [parse_timeline_event_eq e t het ht0 hmem] at hd
    have hd' := (Option.some.inj hd).symm
    subst hd'
    have hmem' : t ∈ relevant_events := (string_contains_iff _ _).mp hmem
    clear hd hne
    fin_cases hmem' <;>
      simp only [eventBaseDict] <;>
        cases e.actor <;> cases e.label <;> cases e.assignee <;> cases e.milestone <;>
          simp

/-- Witness for C6 (amended) on a fully-populated `labeled` event. -/
theorem parse_timeline_event_characterization_witness :
    ((_parse_timeline_event sampleLabeledEvent).isSome = true ↔
      ∃ t, sampleLabeledEvent.event = some t ∧ t ∈ relevant_events) ∧
    (("action", some "labeled") ∈ ((_parse_timeline_event sampleLabeledEvent).getD []) ∧
     ("actor", some "erin") ∈ ((_parse_timeline_event sampleLabeledEvent).getD []) ∧
     ("label", some "DocumentedFeature") ∈ ((_parse_timeline_event sampleLabeledEvent).getD [])) :=
  have h := parse_timeline_event_characterization sampleLabeledEvent
  have h2 := h.2 "labeled" ((_parse_timeline_event sampleLabeledEvent).getD [])
    (by decide) (by decide)
  ⟨h.1, h2.1, h2.2.2.1 "erin" (by decide), h2.2.2.2.2.1 (Or.inl rfl) (some "DocumentedFeature")
    (by decide)⟩

-- ## Claim C8

theorem getProjectIssuesLoop_eq (project : GitHubProject) :
    ∀ (responses : List (Option ProjectPage)) (acc : List ProjectIssue),
    getProjectIssuesLoop project acc responses
      = acc ++ (consumedPages responses).flatMap (parsedNodes project) := by
  intro responses
  induction responses with
  | nil => intro acc; simp [getProjectIssuesLoop, consumedPages]
  | cons r rest ih =>
    intro acc
    cases r with
    | none => simp [getProjectIssuesLoop, consumedPages]
    | some page =>
      cases hnp : page.hasNextPage with
      | true =>
        simp only [getProjectIssuesLoop, hnp, if_true, consumedPages, List.flatMap_cons]
        rw [ih]
        simp [List.append_assoc]
      | false =>
        simp only [getProjectIssuesLoop, hnp, consumedPages, List.flatMap_cons]
        simp

/-- C8 (spec-modelled): the project-issue pagination accumulates the parsed
nodes of the consumed pages in page order — it consumes successive pages up
to and including the first page with `hasNextPage = false`, and stops (with
the results accumulated so far, no exception) at the first unusable
response — so the total returned count is the sum of the per-page parsed-node
counts, and a first-page failure yields the empty list. -/
theorem get_project_issues_pagination (project : GitHubProject)
    (responses : List (Option ProjectPage)) :
    get_project_issues project responses
      = (consumedPages responses).flatMap (parsedNodes project) ∧
    (get_project_issues project responses).length
      = ((consumedPages responses).map (fun p => (parsedNodes project p).length)).sum ∧
    (responses.head? = some none → get_project_issues project responses = []) := by
  have h1 : get_project_issues project responses
      = (consumedPages responses).flatMap (parsedNodes project) := by
    rw [get_project_issues, getProjectIssuesLoop_eq]
    simp
  refine ⟨h1, ?_, ?_⟩
  · rw [h1, List.length_flatMap]
    rfl
  · intro hh
    cases responses with
    | nil => cases hh
    | cons r rest =>
      have : r = none := by simpa using hh
      subst this
      rw [h1]
      simp [consumedPages]

/-- Witness for C8: an immediately failing first page yields the empty list;
the sample two-page run returns its three parsed nodes in page order. -/
theorem get_project_issues_pagination_witness :
    get_project_issues sampleProject [none] = [] :=
  (get_project_issues_pagination sampleProject [none]).2.2 rfl

-- ## Claim C9

theorem foldl_applyFieldType_number (project : GitHubProject) (l : List String) :
    ∀ s : ProjectIssue, (l.foldl (applyFieldType project) s).number = s.number := by
  induction l with
  | nil => intro s; rfl
  | cons ft l ih =>
    intro s
    rw [List.foldl_cons, ih]
    unfold applyFieldType
    repeat' split
    all_goals rfl

theorem foldl_applyFieldType_org (project : GitHubProject) (l : List String) :
    ∀ s : ProjectIssue, (l.foldl (applyFieldType project) s).organization_name
      = s.organization_name := by
  induction l with
  | nil => intro s; rfl
  | cons ft l ih =>
    intro s
    rw [List.foldl_cons, ih]
    unfold applyFieldType
    repeat' split
    all_goals rfl

theorem foldl_applyFieldType_repo (project : GitHubProject) (l : List String) :
    ∀ s : ProjectIssue, (l.foldl (applyFieldType project) s).repository_name
      = s.repository_name := by
  induction l with
  | nil => intro s; rfl
  | cons ft l ih =>
    intro s
    rw [List.foldl_cons, ih]
    unfold applyFieldType
    repeat' split
    all_goals rfl

/-- C9: `ProjectIssue.loads` returns `none` only for a node without a
`content` key.  A node whose `content` is present is always loaded — even
when nested keys are missing, the caught `KeyError` leaves the defaults in
place (number `0`, empty organization and repository names), so the collector
keys such an issue under the degenerate composite key `"/#0"` instead of
skipping it. -/
theorem project_issue_loads_keeps_defaults (node : ProjectItemJson) (project : GitHubProject) :
    (node.content = none → ProjectIssue.loads {} node project = none) ∧
    (∀ cj, node.content = some cj → ∃ pi, ProjectIssue.loads {} node project = some pi ∧
      (cj.number = none →
        pi.number = 0 ∧ pi.organization_name = "" ∧ pi.repository_name = "" ∧
        projectIssueKeyOf pi = "/#0") ∧
      (cj.repository = none →
        pi.organization_name = "" ∧ pi.repository_name = "")) := by
  constructor
  · intro h; simp [ProjectIssue.loads, h]
  · intro cj hcj
    simp only [ProjectIssue.loads, hcj]
    refine ⟨_, rfl, ?_, ?_⟩
    · intro hn
      have hlast : ("/#" ++ toString (0 : Nat)) = "/#0" := by decide
      refine ⟨?_, ?_, ?_, ?_⟩ <;>
        simp [foldl_applyFieldType_number, foldl_applyFieldType_org, foldl_applyFieldType_repo,
          ProjectIssue.loadKeyFields, hn, projectIssueKeyOf, make_issue_key, hlast]
    · intro hr
      cases hn2 : cj.number with
      | none =>
        constructor <;>
          simp [foldl_applyFieldType_org, foldl_applyFieldType_repo,
            ProjectIssue.loadKeyFields, hn2]
      | some n =>
        constructor <;>
          simp [foldl_applyFieldType_org, foldl_applyFieldType_repo,
            ProjectIssue.loadKeyFields, hn2, hr]

/-- Witness for C9: the degenerate sample node (empty `content`) is loaded,
keyed `"/#0"`, while a node without `content` is skipped. -/
theorem project_issue_loads_keeps_defaults_witness :
    ∃ pi, ProjectIssue.loads {} sampleDegenerateNode sampleProject = some pi ∧
      ((sampleDegenerateNode.content.getD { number := none, repository := none }).number = none →
        pi.number = 0 ∧ pi.organization_name = "" ∧ pi.repository_name = "" ∧
        projectIssueKeyOf pi = "/#0") ∧
      ((sampleDegenerateNode.content.getD { number := none, repository := none }).repository
          = none →
        pi.organization_name = "" ∧ pi.repository_name = "") :=
  (project_issue_loads_keeps_defaults sampleDegenerateNode sampleProject).2
    { number := none, repository := none } rfl

end LivingDoc
